import Mathlib

/-!
Shallow embedding of the generic CRUD resource framework of the
flask-project repository, covering:

* `src/app/common/utils.py`          — `loads_json_str`, `dumps_json_str`
* `src/app/common/common_func.py`    — `__process_query_item_data`,
                                       `query_data_process`, `http_resp`
* `src/app/common/common_resource.py`— `CommonResource.get_parser_args`,
                                       `_CommonModelResource` query helpers,
                                       `CommonListResource.get/post`,
                                       `CommonItemResource.get/put/delete`

Python values are modelled by the inductive `Value`; records (ORM model
instances) are association lists of attribute name/value pairs; the
database session is a pair of the committed row list and the working
(in-transaction) row list.  Exceptions are modelled with `Except PyErr`.
-/

namespace FlaskCrud

/-- Python runtime errors that the embedded code can raise. -/
inductive PyErr where
  | typeError
  | valueError
  | attrError
  | other (s : String)
deriving DecidableEq, Repr

/-- Python values occurring in the CRUD pipeline: `None`, ints, strings,
booleans, lists, dicts, ORM model instances (`obj`, an attribute map), and
flask `Response` objects built by `http_resp` (code, message, data, HTTP
status). -/
inductive Value where
  | none
  | int (i : Int)
  | str (s : String)
  | bool (b : Bool)
  | list (xs : List Value)
  | dict (xs : List (String × Value))
  | obj (attrs : List (String × Value))
  | resp (code : Int) (message : String) (data : Value) (status : Nat)
deriving Repr

/-- Structural equality on `Value` (Python `==` for the data shapes used
here). -/
def Value.beq : Value → Value → Bool
  | .none, .none => true
  | .int a, .int b => a == b
  | .str a, .str b => a == b
  | .bool a, .bool b => a == b
  | .list xs, .list ys => beqList xs ys
  | .dict xs, .dict ys => beqPairs xs ys
  | .obj xs, .obj ys => beqPairs xs ys
  | .resp c m d s, .resp c' m' d' s' =>
      c == c' && m == m' && Value.beq d d' && s == s'
  | _, _ => false
where
  beqList : List Value → List Value → Bool
    | [], [] => true
    | x :: xs, y :: ys => Value.beq x y && beqList xs ys
    | _, _ => false
  beqPairs : List (String × Value) → List (String × Value) → Bool
    | [], [] => true
    | (k, v) :: xs, (k', v') :: ys => k == k' && Value.beq v v' && beqPairs xs ys
    | _, _ => false

/-- Python `is None` test (identity with the `None` singleton). -/
def Value.isNone : Value → Bool
  | .none => true
  | _ => false

/-- Python truthiness for the value shapes used in the pipeline. -/
def Value.truthy : Value → Bool
  | .none => false
  | .int i => i != 0
  | .str s => s ≠ ""
  | .bool b => b
  | .list xs => !xs.isEmpty
  | .dict xs => !xs.isEmpty
  | .obj _ => true
  | .resp _ _ _ _ => true

/-- Records: ORM model instances, as attribute association lists. -/
abbrev Record := List (String × Value)

/-- Parsed request arguments: an ordered association list, mirroring a
Python dict (insertion order, unique keys). -/
abbrev Args := List (String × Value)

/-- Association-list lookup (Python `d.get(k)` / `getattr`). -/
def lookupS (xs : List (String × Value)) (k : String) : Option Value :=
  match xs with
  | [] => Option.none
  | (k', v) :: rest => if k' = k then some v else lookupS rest k

/-- Association-list key membership (Python `k in d` / `hasattr`). -/
def containsKey (xs : List (String × Value)) (k : String) : Bool :=
  match xs with
  | [] => false
  | (k', _) :: rest => k' = k || containsKey rest k

/-- Association-list update-or-append (Python `d[k] = v` / `setattr`). -/
def insertS (xs : List (String × Value)) (k : String) (v : Value) :
    List (String × Value) :=
  match xs with
  | [] => [(k, v)]
  | (k', v') :: rest =>
      if k' = k then (k, v) :: rest else (k', v') :: insertS rest k v

/-- Record attribute access, `getattr(item, k)` as an `Option`. -/
def getattrR (r : Record) (k : String) : Option Value := lookupS r k

/-- Record attribute presence, `hasattr(item, k)`. -/
def hasattrR (r : Record) (k : String) : Bool := containsKey r k

/-- Record attribute assignment, `setattr(item, k, v)`. -/
def setattrR (r : Record) (k : String) (v : Value) : Record := insertS r k v

/-- getattr with a default, `getattr(x, k, d)`, where `x` may be `None`
(a missing item): `None` has no such attribute, so the default is
returned. -/
def getattrOr (item : Option Record) (k : String) (d : Value) : Value :=
  match item with
  | Option.none => d
  | some r => (getattrR r k).getD d

/-- Interface of the external `json` module (a collaborator, not code of
this repository): `decode` is `json.loads` (which may raise on invalid
input), `encode` is `json.dumps`. -/
structure JsonCodec where
  decode : String → Except PyErr Value
  encode : Value → String

/-- Modelled from the spec: the module `app/common/constants.py` is
imported by the source but absent from `src/`; per §6 the two sentinel
codes are SUCCESS and FAILED, load-bearing only up to (in)equality, and
`http_resp`'s docstring shows success as nonzero and failure as 0. -/
def SUCCESS_CODE : Int := 1

/-- Modelled from the spec: the FAILED sentinel code from the missing
`app/common/constants.py` (see `SUCCESS_CODE`). -/
def FAILED_CODE : Int := 0

/-- Modelled from the spec: `constants.DB_QUERY_OBJ_ATTRS` from the missing
`app/common/constants.py`, the internal ORM query-object attribute names
excluded by the serializer's default field selection (§4.3: "every
non-internal attribute"). -/
def DB_QUERY_OBJ_ATTRS : List String := ["metadata", "query", "query_class", "registry"]

/-- Embedding of `common_func.http_resp` (the response envelope builder):
`data if data is not None else {}`, with the given code, message and HTTP
status.  The request id is threaded by the framework and not modelled. -/
def http_resp (code : Int := 1) (message : String := "请求成功")
    (data : Value := .none) (status : Nat := 200) : Value :=
  .resp code message (if data.isNone then .dict [] else data) status

/-! ## `src/app/common/utils.py` -/

/-- Embedding of `utils.loads_json_str`: if the input is truthy and a
string it is parsed with `json.loads` (which may raise); if it is already
a dict or list it is returned as is; otherwise an empty dict is
returned. -/
def loads_json_str (c : JsonCodec) (json_data : Value) : Except PyErr Value :=
  if json_data.truthy then
    match json_data with
    | .str s => c.decode s
    | .dict xs => .ok (.dict xs)
    | .list xs => .ok (.list xs)
    | _ => .ok (.dict [])
  else
    .ok (.dict [])

/-- Embedding of `utils.dumps_json_str`: `None` serializes to the literal
two-character string of an empty JSON object, everything else goes through
`json.dumps`. -/
def dumps_json_str (c : JsonCodec) (data : Value) : String :=
  match data with
  | .none => "\x7b\x7d"
  | v => c.encode v

/-! ## `src/app/common/common_func.py` -/

/-- Default feature derivation when `item_features` is empty:
`[attr for attr in dir(item) if not attr.startswith('_') and attr not in
constants.DB_QUERY_OBJ_ATTRS]`.  For a model instance `dir` is modelled as
its attribute names; for other shapes (for a plain dict, `dir` yields only
dict methods, which the per-feature lookup then skips) it is modelled as
empty. -/
def defaultFeatures (item : Value) : List String :=
  match item with
  | .obj attrs =>
      (attrs.map Prod.fst).filter
        (fun a => !a.startsWith "_" && !DB_QUERY_OBJ_ATTRS.contains a)
  | _ => []

/-- Per-feature value lookup in `__process_query_item_data`:
`if isinstance(item, dict) and feature in item: item.get(feature)`
`elif hasattr(item, feature): getattr(item, feature)` `else: continue`
(`Option.none` models the `continue`; for non-dict non-model shapes
`hasattr` is false for data field names). -/
def lookupFeature (item : Value) (f : String) : Option Value :=
  match item with
  | .dict xs => lookupS xs f
  | .obj attrs => lookupS attrs f
  | _ => Option.none

/-- Embedding of the body of `common_func.__process_query_item_data` (the
loop over features).  Faithful details: a `None` field value is emitted as
is and skips the transforms; a feature in `json_load_features` is replaced
by `loads_json_str(feature)` — the field NAME string, not the field value,
exactly as in the source; likewise a feature in `json_dump_features` is
replaced by `dumps_json_str(feature)`; the `isinstance(feature, datetime)`
test is on the feature name, a string, so it is always false and the plain
assignment branch is taken (the `date_format` parameter is therefore
unused, as in the source). -/
def process_query_item_data (c : JsonCodec) (item : Value)
    (date_format : Nat := 1) (item_features : List String := [])
    (json_load_features : List String := [])
    (json_dump_features : List String := []) :
    Except PyErr (List (String × Value)) :=
  if !item.truthy then .ok []
  else
    let feats := if item_features.isEmpty then defaultFeatures item else item_features
    go feats []
where
  go : List String → List (String × Value) → Except PyErr (List (String × Value))
    | [], acc => .ok acc
    | feature :: rest, acc =>
        match lookupFeature item feature with
        | Option.none => go rest acc
        | some v =>
            if v.isNone then
              go rest (insertS acc feature v)
            else do
              let v ←
                if json_load_features.contains feature then
                  loads_json_str c (.str feature)
                else
                  pure v
              let v :=
                if json_dump_features.contains feature then
                  .str (dumps_json_str c (.str feature))
                else
                  v
              go rest (insertS acc feature v)

/-- Embedding of the call `__process_query_item_data(item, date_format,
data_features, json_load_features, json_dump_features)` inside
`common_func.query_data_process`: the callee declares every parameter
after `item` as keyword-only (`def __process_query_item_data(item, *,
...)`), so this call passes five positional arguments to a one-positional-
argument function and Python raises `TypeError` before the callee body
runs. -/
def call_process_item_positional (c : JsonCodec) (item : Value)
    (date_format : Nat) (data_features json_load_features json_dump_features :
    List String) : Except PyErr Value :=
  .error .typeError

/-- Embedding of `common_func.query_data_process`: a list input maps the
(positional, hence failing) per-item call over the elements; any other
input goes through a single such call. -/
def query_data_process (c : JsonCodec) (data : Value)
    (date_format : Nat := 1) (data_features : List String := [])
    (json_load_features : List String := [])
    (json_dump_features : List String := []) : Except PyErr Value :=
  match data with
  | .list items =>
      (items.mapM (fun it =>
        call_process_item_positional c it date_format data_features
          json_load_features json_dump_features)).map .list
  | _ =>
      call_process_item_positional c data date_format data_features
        json_load_features json_dump_features

/-! ## `src/app/common/common_resource.py` — model, session, query helpers -/

/-- Shape of an ORM model class: its declared column/attribute names
(`hasattr(model, k)` is membership) and the fresh-row template holding
each column's default value (e.g. `is_delete` defaults to `0`,
`id` to `None` until flush). -/
structure ModelMeta where
  fields : List String
  defaults : Record

/-- Database session state: the committed rows and the in-transaction
working rows.  `commit` publishes the working rows; `rollback` restores
the working rows from the committed ones. -/
structure St where
  committed : List Record
  working : List Record
deriving Repr

/-- Session rollback, `db.session.rollback()`. -/
def St.rollback (st : St) : St := { committed := st.committed, working := st.committed }

/-- Session commit, `db.session.commit()`. -/
def St.commit (st : St) : St := { committed := st.working, working := st.working }

/-- Primary-key match of one row against a key value. -/
def idMatches (pid : Value) (r : Record) : Bool :=
  match getattrR r "id" with
  | some v => Value.beq v pid
  | Option.none => false

/-- Primary-key lookup, `model.query.get(pid)`: the first working row
whose `id` column equals the given key; `None` when no row matches. -/
def queryGet (working : List Record) (pid : Value) : Option Record :=
  working.find? (idMatches pid)

/-- Embedding of `_CommonModelResource.get_item_by_pid`:
`item = model.query.get(pid) if pid else None`, then a row whose
`is_delete` attribute is truthy (with default `0`, also covering `None`)
is replaced by `None`. -/
def get_item_by_pid (working : List Record) (pid : Value) : Option Record :=
  let item := if pid.truthy then queryGet working pid else Option.none
  if (getattrOr item "is_delete" (.int 0)).truthy then Option.none else item

/-- Three-way comparison on column values (ints and strings compare;
other shape pairs are incomparable and the relational predicate does not
hold, as a SQL comparison with an unmatched operand selects nothing). -/
def valCmp : Value → Value → Option Ordering
  | .int a, .int b => some (compare a b)
  | .str a, .str b => some (compare a b)
  | _, _ => Option.none

/-- Relational row predicate for one comparison directive on one field. -/
def cmpPred (field : String) (v : Value) (keep : Ordering → Bool) (r : Record) : Bool :=
  match getattrR r field with
  | some x =>
      match valCmp x v with
      | some o => keep o
      | Option.none => false
  | Option.none => false

/-- Embedding of `_CommonModelResource._query_filter_other_logic`:
exactly one comparison directive is honoured per field, tested in the
fixed order `gt`, `lt`, `ge`, `le`, `ne`; an unrecognised directive
leaves the query unchanged.  `ne` keeps rows whose (non-NULL) value
differs. -/
def _query_filter_other_logic (rows : List Record) (field : String)
    (logic_value : List (String × Value)) : List Record :=
  if containsKey logic_value "gt" then
    rows.filter (cmpPred field ((lookupS logic_value "gt").getD .none) (· == .gt))
  else if containsKey logic_value "lt" then
    rows.filter (cmpPred field ((lookupS logic_value "lt").getD .none) (· == .lt))
  else if containsKey logic_value "ge" then
    rows.filter (cmpPred field ((lookupS logic_value "ge").getD .none) (· != .lt))
  else if containsKey logic_value "le" then
    rows.filter (cmpPred field ((lookupS logic_value "le").getD .none) (· != .gt))
  else if containsKey logic_value "ne" then
    rows.filter (fun r =>
      match getattrR r field with
      | some x => !Value.beq x ((lookupS logic_value "ne").getD .none)
      | Option.none => false)
  else rows

/-- Row predicate for the conjunction of the accumulated equality
filters (`query.filter_by(**equal_filters)`). -/
def eqFiltersPred (equal_filters : List (String × Value)) (r : Record) : Bool :=
  equal_filters.all (fun kv =>
    match getattrR r kv.1 with
    | some x => Value.beq x kv.2
    | Option.none => false)

/-- Shared query-building body of `get_item_by_filters`,
`get_items_by_filters` and `get_count_by_filters` (the three helpers
duplicate this code verbatim in the source): if the model declares
`is_delete`, the entry `is_delete = 0` is written into the filter map
(overwriting any caller-passed entry); dict-valued entries become
comparison predicates, the rest become one conjoined equality filter. -/
def filters_query (model : ModelMeta) (working : List Record)
    (filters : List (String × Value)) : List Record :=
  let filters :=
    if model.fields.contains "is_delete" then insertS filters "is_delete" (.int 0)
    else filters
  let rows := filters.foldl
    (fun rows kv =>
      match kv.2 with
      | .dict lv => _query_filter_other_logic rows kv.1 lv
      | _ => rows)
    working
  let equal_filters := filters.filter (fun kv =>
    match kv.2 with
    | .dict _ => false
    | _ => true)
  if equal_filters.isEmpty then rows else rows.filter (eqFiltersPred equal_filters)

/-- Column projection, `query.with_entities(*fields)` (applied only when
the `fields` argument is non-empty, as `if fields:` in the source). -/
def projectR (fields : List String) (r : Record) : Record :=
  fields.map (fun f => (f, (getattrR r f).getD .none))

/-- Embedding of `_CommonModelResource.get_item_by_filters`
(`query.first()` after the shared filter building and optional
projection). -/
def get_item_by_filters (model : ModelMeta) (working : List Record)
    (fields : List String) (filters : List (String × Value)) : Option Record :=
  let rows := filters_query model working filters
  let rows := if fields.isEmpty then rows else rows.map (projectR fields)
  rows.head?

/-- Embedding of `_CommonModelResource.get_items_by_filters`
(`query.all()`). -/
def get_items_by_filters (model : ModelMeta) (working : List Record)
    (fields : List String) (filters : List (String × Value)) : List Record :=
  let rows := filters_query model working filters
  if fields.isEmpty then rows else rows.map (projectR fields)

/-- Embedding of `_CommonModelResource.get_count_by_filters`
(`query.count()`; projection does not change the row count). -/
def get_count_by_filters (model : ModelMeta) (working : List Record)
    (fields : List String) (filters : List (String × Value)) : Nat :=
  (filters_query model working filters).length

/-! ## Resource configuration and hooks

A concrete resource subclass is modelled by a `ResourceCfg`: the model,
the serializer settings, the uniqueness field sets, and one `Option`al
function per dynamically discovered hook (`hasattr(self, name)` becomes
`Option.isSome`).  Read-path hooks are state-independent; write-path
hooks also transform the working rows (they run inside the open
transaction).  Any hook may raise (`Except`) and may yield a flask
`Response` (`Value.resp`), which the pipeline detects by type. -/

structure ResourceCfg where
  model : ModelMeta
  get_fields : List String := []
  date_format : Nat := 1
  json_load_features : List String := []
  json_dump_features : List String := []
  put_check_exist_fields : List String := []
  post_check_exist_fields : List String := []
  check_item_exist_func :
    Option (List Record → List String → Args → Except PyErr (Option Record)) := Option.none
  get_query_func : Option (List Record → Args → List Record) := Option.none
  add_query_filter : Option (List Record → Args → List Record) := Option.none
  add_query_sort : Option (List Record → Args → List Record) := Option.none
  get_preprocess_func : Option (Args → Except PyErr Value) := Option.none
  get_postprocess_func : Option (Value → Args → Except PyErr Value) := Option.none
  get_query_data_process_func : Option (Value → Args → Except PyErr Value) := Option.none
  get_process_return_data : Option (Value → Args → Except PyErr Value) := Option.none
  get_item_func : Option (List Record → Value → Args → Except PyErr Value) := Option.none
  get_item_by_join_func : Option (List Record → Value → Args → Except PyErr Value) := Option.none
  post_preprocess_func :
    Option (List Record → Args → Except PyErr (List Record × Value)) := Option.none
  post_postprocess_func :
    Option (List Record → Value → Args → Except PyErr (List Record × Value)) := Option.none
  post_query_data_process_func :
    Option (List Record → Value → Args → Except PyErr (List Record × Value)) := Option.none
  post_process_return_data :
    Option (List Record → Value → Args → Except PyErr (List Record × Value)) := Option.none
  put_preprocess_func :
    Option (List Record → Value → Args → Except PyErr (List Record × Value)) := Option.none
  put_postprocess_func :
    Option (List Record → Value → Args → Except PyErr (List Record × Value)) := Option.none
  put_query_data_process_func :
    Option (List Record → Value → Args → Except PyErr (List Record × Value)) := Option.none
  put_process_return_data :
    Option (List Record → Value → Args → Except PyErr (List Record × Value)) := Option.none
  delete_preprocess_func :
    Option (List Record → Value → Args → Except PyErr (List Record × Value)) := Option.none
  delete_postprocess_func :
    Option (List Record → Value → Args → Except PyErr (List Record × Value)) := Option.none

/-- Embedding of `CommonResource.get_parser_args` applied to the raw
`reqparse` result (the external parser's output, an argument map in which
unsupplied or null-valued declared arguments carry `None`): the returned
dict drops every `None`-valued entry
(`{k: v for k, v in args.items() if v is not None}`). -/
def get_parser_args (raw : Args) : Args :=
  raw.filter (fun kv => !kv.2.isNone)

/-- Embedding of `_CommonModelResource.check_item_exist`, faithful to the
source's branch structure: with a non-empty `check_fields` list the custom
`check_item_exist_func` is consulted if present, otherwise the method body
falls through and implicitly returns `None`; with an empty `check_fields`
list the `else` branch builds a filter map from `check_fields` (hence
empty) and queries `get_item_by_filters` with it. -/
def check_item_exist (cfg : ResourceCfg) (working : List Record)
    (check_fields : List String) (fields_dict : Args) :
    Except PyErr (Option Record) :=
  if !check_fields.isEmpty then
    match cfg.check_item_exist_func with
    | some f => f working check_fields fields_dict
    | Option.none => .ok Option.none
  else
    let query_filters :=
      (check_fields.filter (fun f => containsKey fields_dict f)).map
        (fun f => (f, (lookupS fields_dict f).getD .none))
    .ok (get_item_by_filters cfg.model working [] query_filters)

/-- Embedding of the method `_CommonModelResource.query_data_process`,
which forwards to the module-level `query_data_process` with the
resource's serializer settings as keyword arguments. -/
def resource_query_data_process (c : JsonCodec) (cfg : ResourceCfg)
    (data : Value) : Except PyErr Value :=
  query_data_process c data cfg.date_format cfg.get_fields
    cfg.json_load_features cfg.json_dump_features

/-! ## List query building (`CommonListResource.get_query` / `get_total`) -/

/-- Descending-order insertion used by the default `create_time` sort. -/
def insDesc (key : Record → Value) (r : Record) : List Record → List Record
  | [] => [r]
  | x :: xs =>
      if valCmp (key x) (key r) == some .lt then r :: x :: xs
      else x :: insDesc key r xs

/-- Insertion sort in descending key order,
`query.order_by(desc(model.create_time))`. -/
def sortDescBy (key : Record → Value) : List Record → List Record
  | [] => []
  | x :: xs => insDesc key x (sortDescBy key xs)

/-- Value of an integer-typed argument (the paging keys are declared with
`type=int` in `_GET_COMMON_PARAMS`). -/
def argInt (args : Args) (k : String) : Int :=
  match lookupS args k with
  | some (.int i) => i
  | _ => 0

/-- Universal paging argument names accepted by every list resource
(`_GET_COMMON_PARAMS`). -/
def paginationKeys : List String := ["start", "number", "page", "per_page"]

/-- Pagination window of `get_query`: `start`+`number` (offset/limit)
takes precedence over `page`+`per_page`; with neither pair present the
query is unpaginated. -/
def paginate (args : Args) (rows : List Record) : List Record :=
  if containsKey args "start" && containsKey args "number" then
    (rows.drop (argInt args "start").toNat).take (argInt args "number").toNat
  else if containsKey args "page" && containsKey args "per_page" then
    (rows.drop ((argInt args "per_page") * ((argInt args "page") - 1)).toNat).take
      (argInt args "per_page").toNat
  else rows

/-- Embedding of `CommonListResource.get_total` (`query.count()`). -/
def get_total (query : List Record) : Nat := query.length

/-- Filter stages of `CommonListResource.get_query`, in source order:
custom base query (else the model's full table), soft-delete predicate
when the model declares `is_delete`, custom additional filters.  This is
the query as it stands when `self.total` is computed. -/
def filtered_query (cfg : ResourceCfg) (working : List Record) (args : Args) :
    List Record :=
  let query :=
    match cfg.get_query_func with
    | some f => f working args
    | Option.none => working
  let query :=
    if cfg.model.fields.contains "is_delete" then
      query.filter (fun r =>
        match getattrR r "is_delete" with
        | some v => Value.beq v (.int 0)
        | Option.none => false)
    else query
  match cfg.add_query_filter with
  | some f => f query args
  | Option.none => query

/-- Embedding of `CommonListResource.get_query`, returning the stored
total together with the final row list: the filter stages, then the total
count (computed before sorting and pagination), then sort (custom hook,
else descending `create_time` when the model declares it), then the
pagination window. -/
def get_query (cfg : ResourceCfg) (working : List Record) (args : Args) :
    Nat × List Record :=
  let query := filtered_query cfg working args
  let total := get_total query
  let query :=
    match cfg.add_query_sort with
    | some f => f query args
    | Option.none =>
        if cfg.model.fields.contains "create_time" then
          sortDescBy (fun r => (getattrR r "create_time").getD .none) query
        else query
  (total, paginate args query)

/-! ## Operation pipelines

Each HTTP handler is embedded as a `...Try` function (the body of its
`try:` block, in the `Except PyErr` monad, returning the final state and
response) plus a wrapper applying the `except:` handler.  `isinstance(x,
Response)` checks become matches on `Value.resp`. -/

/-- Detect a hook result that is a pre-built `Response`; such a value is
returned immediately, otherwise the continuation runs. -/
def checkResp (v : Value) (k : Value → Except PyErr Value) : Except PyErr Value :=
  match v with
  | .resp .. => .ok v
  | _ => k v

/-- Use a hook result as the parsed-argument dict (a non-dict value makes
the subsequent dict operations raise). -/
def asArgs : Value → Except PyErr Args
  | .dict xs => .ok xs
  | _ => .error .typeError

/-- Use a pipeline value as a model instance (a non-model value from a
custom fetch hook does not support the attribute protocol the pipeline
applies next; modelled as raising). -/
def asObj : Value → Except PyErr Record
  | .obj r => .ok r
  | _ => .error .attrError

/-- Plain attribute access `x.k` (raises `AttributeError` when absent). -/
def attrOrRaise (r : Record) (k : String) : Except PyErr Value :=
  match getattrR r k with
  | some v => .ok v
  | Option.none => .error .attrError

/-- In-place ORM object mutation as seen by the session: every working
row equal to the fetched instance is replaced by its mutated version. -/
def mutateRecord (working : List Record) (old new : Record) : List Record :=
  working.map (fun x => if Value.beq (.obj x) (.obj old) then new else x)

/-- Autoincrement primary key assigned by `db.session.flush()`. -/
def nextId (working : List Record) : Int :=
  (working.foldl
    (fun m r =>
      match getattrR r "id" with
      | some (.int i) => max m i
      | _ => m) 0) + 1

/-- Read-path hook step: `if hasattr(self, name): v = hook(v, args);
if isinstance(v, Response): return v` — `else: v = dflt(v)`; then the
continuation. -/
def hookStep (hook : Option (Value → Args → Except PyErr Value))
    (dflt : Value → Except PyErr Value) (v : Value) (args : Args)
    (k : Value → Except PyErr Value) : Except PyErr Value :=
  match hook with
  | some f => do
      let v2 ← f v args
      checkResp v2 k
  | Option.none => do
      let v2 ← dflt v
      k v2

/-- Write-path hook step on an item value: a hook `Response` triggers
`db.session.rollback()` and is returned; otherwise the (possibly
hook-mutated) working rows and value flow to the continuation. -/
def hookStepW (st : St)
    (hook : Option (List Record → Value → Args → Except PyErr (List Record × Value)))
    (dflt : Value → Except PyErr Value) (v : Value) (args : Args)
    (k : St → Value → Except PyErr (St × Value)) : Except PyErr (St × Value) :=
  match hook with
  | some f => do
      let (w, v2) ← f st.working v args
      match v2 with
      | .resp .. => pure (st.rollback, v2)
      | _ => k { st with working := w } v2
  | Option.none => do
      let v2 ← dflt v
      k st v2

/-- Write-path preprocess step producing new arguments
(`args = hook(args)`; a `Response` rolls back and returns). -/
def argHookStepW (st : St)
    (hook : Option (List Record → Args → Except PyErr (List Record × Value)))
    (args : Args) (k : St → Args → Except PyErr (St × Value)) :
    Except PyErr (St × Value) :=
  match hook with
  | some f => do
      let (w, v) ← f st.working args
      match v with
      | .resp .. => pure (st.rollback, v)
      | _ => do
          let a ← asArgs v
          k { st with working := w } a
  | Option.none => k st args

/-- Write-path preprocess step receiving the fetched item and producing
new arguments (`args = hook(item, args)`). -/
def itemArgHookStepW (st : St)
    (hook : Option (List Record → Value → Args → Except PyErr (List Record × Value)))
    (item : Value) (args : Args) (k : St → Args → Except PyErr (St × Value)) :
    Except PyErr (St × Value) :=
  match hook with
  | some f => do
      let (w, v) ← f st.working item args
      match v with
      | .resp .. => pure (st.rollback, v)
      | _ => do
          let a ← asArgs v
          k { st with working := w } a
  | Option.none => k st args

/-- Embedding of `CommonItemResource.get_item`: custom `get_item_func` or
`model.query.get(id)`; then `if getattr(item, "is_delete", 0): item =
None` — a `None` fetch result has no `is_delete` attribute, so the
default `0` applies and `None` flows through without raising. -/
def get_item (cfg : ResourceCfg) (working : List Record) (idv : Value)
    (args : Args) : Except PyErr Value := do
  let item ← match cfg.get_item_func with
    | some f => f working idv args
    | Option.none =>
        pure (match queryGet working idv with
              | some r => Value.obj r
              | Option.none => Value.none)
  let isdel : Value :=
    match item with
    | .obj r => (getattrR r "is_delete").getD (.int 0)
    | _ => .int 0
  pure (if isdel.truthy then .none else item)

/-- Body of the `try:` block of `CommonListResource.get`.  Faithful
detail: Step 3 (`get_postprocess_func`) performs NO `Response` check in
the source — its result flows straight into the serialization step —
unlike every other hook site. -/
def listGetTry (c : JsonCodec) (cfg : ResourceCfg) (working : List Record)
    (args0 : Args) : Except PyErr Value := do
  let preV ← match cfg.get_preprocess_func with
    | some f => f args0
    | Option.none => pure (.dict args0)
  checkResp preV fun preV => do
    let args ← asArgs preV
    let (total, rows) := get_query cfg working args
    let items : Value := .list (rows.map Value.obj)
    let items ← match cfg.get_postprocess_func with
      | some f => f items args
      | Option.none => pure items
    hookStep cfg.get_query_data_process_func (resource_query_data_process c cfg)
        items args fun items =>
      hookStep cfg.get_process_return_data pure items args fun items =>
        pure (http_resp SUCCESS_CODE "请求成功"
          (.dict [("total", .int total), ("items", items)]))

/-- Embedding of `CommonListResource.get`: parse arguments, run the try
body, convert any exception into the generic "查询失败" failure envelope
(read path: no rollback, state unchanged). -/
def listGet (c : JsonCodec) (cfg : ResourceCfg) (st : St) (raw : Args) :
    St × Value :=
  let args := get_parser_args raw
  match listGetTry c cfg st.working args with
  | .ok v => (st, v)
  | .error _ => (st, http_resp FAILED_CODE "查询失败")

/-- Body of the `try:` block of `CommonItemResource.get`. -/
def itemGetTry (c : JsonCodec) (cfg : ResourceCfg) (working : List Record)
    (idv : Value) (args0 : Args) : Except PyErr Value := do
  let preV ← match cfg.get_preprocess_func with
    | some f => f args0
    | Option.none => pure (.dict args0)
  checkResp preV fun preV => do
    let args ← asArgs preV
    let item ← match cfg.get_item_by_join_func with
      | some f => f working idv args
      | Option.none => get_item cfg working idv args
    match item with
    | .resp .. => pure item
    | .none => pure (http_resp FAILED_CODE "数据不存在")
    | _ =>
      hookStep cfg.get_postprocess_func pure item args fun item =>
        hookStep cfg.get_query_data_process_func (resource_query_data_process c cfg)
            item args fun item =>
          hookStep cfg.get_process_return_data pure item args fun item =>
            pure (http_resp SUCCESS_CODE "请求成功"
              (.dict [("key", idv), ("item", item)]))

/-- Embedding of `CommonItemResource.get`. -/
def itemGet (c : JsonCodec) (cfg : ResourceCfg) (st : St) (idv : Value)
    (raw : Args) : St × Value :=
  let args := get_parser_args raw
  match itemGetTry c cfg st.working idv args with
  | .ok v => (st, v)
  | .error _ => (st, http_resp FAILED_CODE "查询失败")

/-- Creation steps 3–7 of `CommonListResource.post`: construct the new
record from the parsed arguments restricted to declared model fields (on
top of the column defaults), stage it with a flush-assigned id, then run
the post hooks, serialization and final-shape hook, and commit. -/
def postCreate (c : JsonCodec) (cfg : ResourceCfg) (st : St) (args : Args) :
    Except PyErr (St × Value) :=
  let item := (args.filter (fun kv => cfg.model.fields.contains kv.1)).foldl
    (fun r kv => setattrR r kv.1 kv.2) cfg.model.defaults
  let item := setattrR item "id" (.int (nextId st.working))
  let st := { st with working := st.working ++ [item] }
  hookStepW st cfg.post_postprocess_func pure (.obj item) args fun st v =>
    hookStepW st cfg.post_query_data_process_func
        (resource_query_data_process c cfg) v args fun st v =>
      hookStepW st cfg.post_process_return_data pure v args fun st v =>
        pure (st.commit, http_resp SUCCESS_CODE "添加成功" (.dict [("item", v)]))

/-- Body of the `try:` block of `CommonListResource.post`: existence
check first (a found instance is truthy and yields the "数据已存在"
business failure with nothing staged), then preprocess hook, then the
creation steps. -/
def postTry (c : JsonCodec) (cfg : ResourceCfg) (st : St) (args : Args) :
    Except PyErr (St × Value) := do
  let exist ← check_item_exist cfg st.working cfg.post_check_exist_fields args
  if exist.isSome then
    pure (st, http_resp FAILED_CODE "数据已存在")
  else
    argHookStepW st cfg.post_preprocess_func args fun st args =>
      postCreate c cfg st args

/-- Embedding of `CommonListResource.post`: empty parsed arguments are a
client error; any exception in the try body rolls the session back and
yields the generic "添加失败" failure envelope. -/
def postOp (c : JsonCodec) (cfg : ResourceCfg) (st : St) (raw : Args) :
    St × Value :=
  let args := get_parser_args raw
  if args.isEmpty then (st, http_resp FAILED_CODE "参数不能为空")
  else
    match postTry c cfg st args with
    | .ok r => r
    | .error _ => (st.rollback, http_resp FAILED_CODE "添加失败")

/-- Step 4 of `CommonItemResource.put`: `for key, value in args.items():
if hasattr(item, key): setattr(item, key, value)`. -/
def put_update_fields (r : Record) (args : Args) : Record :=
  args.foldl
    (fun it kv => if hasattrR it kv.1 then setattrR it kv.1 kv.2 else it) r

/-- Update steps 4–8 of `CommonItemResource.put`: assign every parsed
argument whose key names an existing attribute of the record, reflect the
mutation in the session, run the post hooks, serialization and
final-shape hook, and commit. -/
def putApply (c : JsonCodec) (cfg : ResourceCfg) (st : St) (idv : Value)
    (r : Record) (args : Args) : Except PyErr (St × Value) :=
  let r2 := put_update_fields r args
  let st := { st with working := mutateRecord st.working r r2 }
  hookStepW st cfg.put_postprocess_func pure (.obj r2) args fun st v =>
    hookStepW st cfg.put_query_data_process_func
        (resource_query_data_process c cfg) v args fun st v =>
      hookStepW st cfg.put_process_return_data pure v args fun st v =>
        pure (st.commit, http_resp SUCCESS_CODE "修改成功"
          (.dict [("key", idv), ("item", v)]))

/-- Body of the `try:` block of `CommonItemResource.put`: fetch (a
`Response` from a fetch hook rolls back and returns; `None` is the
"数据不存在" business failure), preprocess hook, duplicate check (a match
with a different id is the "存在相同记录" business failure), then the
update steps. -/
def putTry (c : JsonCodec) (cfg : ResourceCfg) (st : St) (idv : Value)
    (args : Args) : Except PyErr (St × Value) := do
  let itemV ← get_item cfg st.working idv args
  match itemV with
  | .resp .. => pure (st.rollback, itemV)
  | .none => pure (st, http_resp FAILED_CODE "数据不存在")
  | _ => do
    let r ← asObj itemV
    itemArgHookStepW st cfg.put_preprocess_func (.obj r) args fun st args => do
      let exist ← check_item_exist cfg st.working cfg.put_check_exist_fields args
      match exist with
      | some ex => do
          let exId ← attrOrRaise ex "id"
          let itId ← attrOrRaise r "id"
          if !Value.beq exId itId then
            pure (st, http_resp FAILED_CODE "存在相同记录")
          else
            putApply c cfg st idv r args
      | Option.none => putApply c cfg st idv r args

/-- Embedding of `CommonItemResource.put`. -/
def putOp (c : JsonCodec) (cfg : ResourceCfg) (st : St) (idv : Value)
    (raw : Args) : St × Value :=
  let args := get_parser_args raw
  if args.isEmpty then (st, http_resp FAILED_CODE "参数不能为空")
  else
    match putTry c cfg st idv args with
    | .ok r => r
    | .error _ => (st.rollback, http_resp FAILED_CODE "修改失败")

/-- Body of the `try:` block of `CommonItemResource.delete`: fetch,
preprocess hook, then soft delete (set `is_delete = 1`) when the record
has the flag, else a physical `db.session.delete`, then the post hook and
commit. -/
def deleteTry (c : JsonCodec) (cfg : ResourceCfg) (st : St) (idv : Value)
    (args : Args) : Except PyErr (St × Value) := do
  let itemV ← get_item cfg st.working idv args
  match itemV with
  | .resp .. => pure (st.rollback, itemV)
  | .none => pure (st, http_resp FAILED_CODE "数据不存在")
  | _ => do
    let r ← asObj itemV
    itemArgHookStepW st cfg.delete_preprocess_func (.obj r) args fun st args =>
      let stepSt :=
        if hasattrR r "is_delete" then
          let r2 := setattrR r "is_delete" (.int 1)
          ({ st with working := mutateRecord st.working r r2 }, r2)
        else
          ({ st with working := st.working.filter (fun x => !Value.beq (.obj x) (.obj r)) }, r)
      hookStepW stepSt.1 cfg.delete_postprocess_func pure (.obj stepSt.2) args fun st _ =>
        pure (st.commit, http_resp SUCCESS_CODE "删除成功" (.dict [("key", idv)]))

/-- Embedding of `CommonItemResource.delete`. -/
def deleteOp (c : JsonCodec) (cfg : ResourceCfg) (st : St) (idv : Value)
    (raw : Args) : St × Value :=
  let args := get_parser_args raw
  match deleteTry c cfg st idv args with
  | .ok r => r
  | .error _ => (st.rollback, http_resp FAILED_CODE "删除失败")

/-! ## Concrete fixtures used by closed theorems and witnesses -/

/-- Concrete instance of the external JSON codec used in closed theorems:
the string of the JSON array `[1, 2]` decodes to that array, every other
string (in particular a bare field name such as `config`) is invalid JSON
and raises, exactly as `json.loads` behaves on these inputs. -/
def c0 : JsonCodec :=
  { decode := fun s => if s = "[1, 2]" then .ok (.list [.int 1, .int 2]) else .error .valueError,
    encode := fun _ => "e" }

/-- Concrete model: columns `id`, `name`, `is_delete`, with the
soft-delete flag defaulting to `0` and the primary key assigned at
flush. -/
def mU : ModelMeta :=
  { fields := ["id", "name", "is_delete"],
    defaults := [("id", .none), ("name", .none), ("is_delete", .int 0)] }

/-- Empty database session. -/
def st0 : St := { committed := [], working := [] }

/-- Parsed create arguments `{name: "a"}`. -/
def aN : Args := [("name", .str "a")]

/-- Resource with a declared create-uniqueness field set `("name",)`, no
custom existence hook, and an identity serialization hook (so that the
independent serializer defect does not mask the behaviour of the
existence check). -/
def cfg2 : ResourceCfg :=
  { model := mU,
    post_check_exist_fields := ["name"],
    post_query_data_process_func := some (fun w v _ => .ok (w, v)) }

/-- Resource with all defaults (no hooks). -/
def cfg3 : ResourceCfg := { model := mU }

/-- Existing record with id 1, name `x`, not soft-deleted. -/
def r0 : Record := [("id", .int 1), ("name", .str "x"), ("is_delete", .int 0)]

/-- Session holding exactly the committed record `r0`. -/
def st1 : St := { committed := [r0], working := [r0] }

/-- Pre-built response returned by the list read post-hook in the C8
scenario. -/
def hookedResp : Value := .resp 1 "hooked" (.dict []) 200

/-- Resource whose `get_postprocess_func` returns the pre-built response
`hookedResp`. -/
def cfg8 : ResourceCfg :=
  { model := mU, get_postprocess_func := some (fun _ _ => .ok hookedResp) }

/-- Raw parsed update arguments: a fresh name plus a null-valued key. -/
def rawU : Args := [("name", .str "y"), ("nil", Value.none)]

/-- Resource used by the C4 witness: a create-uniqueness field set (so
the create path reaches its failing serialization step) and a
delete post-hook that raises. -/
def cfgW : ResourceCfg :=
  { model := mU,
    post_check_exist_fields := ["name"],
    delete_postprocess_func := some (fun _ _ _ => .error .valueError) }

/-- Parsed list arguments selecting page 2 with one row per page. -/
def aPag : Args := [("page", .int 2), ("per_page", .int 1)]

/-- Soft-deleted record with id 2. -/
def rDel : Record := [("id", .int 2), ("name", .str "z"), ("is_delete", .int 1)]

/-! ## Helper lemmas -/

mutual

theorem Value.beq_refl : ∀ (a : Value), Value.beq a a = true
  | .none => rfl
  | .int a => by simp [Value.beq]
  | .str s => by simp [Value.beq]
  | .bool b => by simp [Value.beq]
  | .list xs => by simp only [Value.beq]; exact beqList_refl xs
  | .dict xs => by simp only [Value.beq]; exact beqPairs_refl xs
  | .obj xs => by simp only [Value.beq]; exact beqPairs_refl xs
  | .resp c m d s => by simp [Value.beq, Value.beq_refl d]

theorem beqList_refl : ∀ (xs : List Value), Value.beq.beqList xs xs = true
  | [] => rfl
  | x :: xs => by simp [Value.beq.beqList, Value.beq_refl x, beqList_refl xs]

theorem beqPairs_refl : ∀ (xs : List (String × Value)), Value.beq.beqPairs xs xs = true
  | [] => rfl
  | (k, v) :: xs => by simp [Value.beq.beqPairs, Value.beq_refl v, beqPairs_refl xs]

end

theorem value_beq_int (v : Value) (n : Int) (h : Value.beq v (.int n) = true) :
    v = .int n := by
  cases v <;> simp [Value.beq] at h
  rw [h]

theorem getattr_setattr_same (r : Record) (k : String) (v : Value) :
    getattrR (setattrR r k v) k = some v := by
  induction r with
  | nil => simp [getattrR, setattrR, insertS, lookupS]
  | cons kv rest ih =>
      obtain ⟨a, b⟩ := kv
      by_cases h : a = k
      · simp [getattrR, setattrR, insertS, lookupS, h]
      · simpa [getattrR, setattrR, insertS, lookupS, h] using ih

theorem getattr_setattr_ne (r : Record) (k k' : String) (v : Value) (h : k ≠ k') :
    getattrR (setattrR r k v) k' = getattrR r k' := by
  induction r with
  | nil => simp [getattrR, setattrR, insertS, lookupS, h]
  | cons kv rest ih =>
      obtain ⟨a, b⟩ := kv
      by_cases hak : a = k
      · subst hak
        simp [getattrR, setattrR, insertS, lookupS, h]
      · simp only [getattrR, setattrR] at ih
        simp only [getattrR, setattrR, insertS, lookupS, if_neg hak]
        rw [ih]

theorem hasattr_of_getattr_some (r : Record) (k : String) (v : Value)
    (h : getattrR r k = some v) : hasattrR r k = true := by
  induction r with
  | nil => simp [getattrR, lookupS] at h
  | cons kv rest ih =>
      obtain ⟨a, b⟩ := kv
      by_cases hak : a = k
      · simp [hasattrR, containsKey, hak]
      · simp only [getattrR, lookupS, if_neg hak] at h
        simpa [hasattrR, containsKey, hak] using ih h

theorem hasattr_setattr_keep (r : Record) (k : String) (v : Value) (k' : String)
    (h : hasattrR r k = true) : hasattrR (setattrR r k v) k' = hasattrR r k' := by
  induction r with
  | nil => simp [hasattrR, containsKey] at h
  | cons kv rest ih =>
      obtain ⟨a, b⟩ := kv
      by_cases hak : a = k
      · subst hak
        simp [hasattrR, setattrR, insertS, containsKey]
      · simp only [hasattrR, containsKey, decide_eq_true_eq, Bool.or_eq_true] at h
        rcases h with h | h
        · exact absurd h hak
        · simp only [hasattrR, setattrR] at ih
          simp only [hasattrR, setattrR, insertS, containsKey, if_neg hak]
          rw [ih h]

theorem containsKey_eq_false_of_not_mem (xs : Args) (k : String)
    (h : k ∉ xs.map Prod.fst) : containsKey xs k = false := by
  induction xs with
  | nil => rfl
  | cons kv rest ih =>
      simp only [List.map_cons, List.mem_cons, not_or] at h
      have hne : ¬ kv.1 = k := fun he => h.1 he.symm
      simp [containsKey, hne, ih h.2]

/-! ## Lemmas about the update-application loop -/

theorem hasattr_put_update_fields (args : Args) (r : Record) (k : String) :
    hasattrR (put_update_fields r args) k = hasattrR r k := by
  induction args generalizing r with
  | nil => rfl
  | cons kv rest ih =>
      show hasattrR (put_update_fields
        (if hasattrR r kv.1 then setattrR r kv.1 kv.2 else r) rest) k = _
      rw [ih]
      by_cases h : hasattrR r kv.1 = true
      · rw [if_pos h, hasattr_setattr_keep _ _ _ _ h]
      · simp [h]

theorem put_update_fields_not_mem (args : Args) (r : Record) (k : String)
    (h : containsKey args k = false) :
    getattrR (put_update_fields r args) k = getattrR r k := by
  induction args generalizing r with
  | nil => rfl
  | cons kv rest ih =>
      obtain ⟨a, b⟩ := kv
      simp only [containsKey, Bool.or_eq_false_iff, decide_eq_false_iff_not] at h
      show getattrR (put_update_fields
        (if hasattrR r a then setattrR r a b else r) rest) k = _
      rw [ih _ h.2]
      by_cases ha : hasattrR r a = true
      · rw [if_pos ha, getattr_setattr_ne _ _ _ _ h.1]
      · simp [ha]

theorem put_update_fields_not_attr (args : Args) (r : Record) (k : String)
    (h : hasattrR r k = false) :
    getattrR (put_update_fields r args) k = getattrR r k := by
  induction args generalizing r with
  | nil => rfl
  | cons kv rest ih =>
      obtain ⟨a, b⟩ := kv
      show getattrR (put_update_fields
        (if hasattrR r a then setattrR r a b else r) rest) k = _
      by_cases ha : hasattrR r a = true
      · have hak : a ≠ k := fun he => by rw [he] at ha; rw [ha] at h; cases h
        rw [if_pos ha, ih _ (by rw [hasattr_setattr_keep _ _ _ _ ha]; exact h),
          getattr_setattr_ne _ _ _ _ hak]
      · simp only [ha, if_false, Bool.false_eq_true]
        exact ih _ h

theorem put_update_fields_mem (args : Args) (r : Record) (k : String) (v : Value)
    (hnd : (args.map Prod.fst).Nodup) (hl : lookupS args k = some v)
    (hr : hasattrR r k = true) :
    getattrR (put_update_fields r args) k = some v := by
  induction args generalizing r with
  | nil => simp [lookupS] at hl
  | cons kv rest ih =>
      obtain ⟨a, b⟩ := kv
      simp only [List.map_cons, List.nodup_cons] at hnd
      by_cases hak : a = k
      · subst hak
        simp [lookupS] at hl
        subst hl
        have hcf : containsKey rest a = false :=
          containsKey_eq_false_of_not_mem _ _ hnd.1
        show getattrR (put_update_fields
          (if hasattrR r a then setattrR r a b else r) rest) a = _
        rw [if_pos hr, put_update_fields_not_mem _ _ _ hcf, getattr_setattr_same]
      · simp only [lookupS, if_neg hak] at hl
        show getattrR (put_update_fields
          (if hasattrR r a then setattrR r a b else r) rest) k = _
        by_cases ha : hasattrR r a = true
        · rw [if_pos ha]
          exact ih _ hnd.2 hl (by rw [hasattr_setattr_keep _ _ _ _ ha]; exact hr)
        · simp only [ha, if_false, Bool.false_eq_true]
          exact ih _ hnd.2 hl hr

theorem lookup_get_parser_args_not_none (raw : Args) (k : String) (v : Value)
    (h : lookupS (get_parser_args raw) k = some v) : v.isNone = false := by
  induction raw with
  | nil => simp [get_parser_args, lookupS] at h
  | cons kv rest ih =>
      obtain ⟨a, b⟩ := kv
      by_cases hb : b.isNone = false
      · simp only [get_parser_args, List.filter_cons, hb, Bool.not_false, if_pos] at h
        by_cases hak : a = k
        · simp only [lookupS, if_pos hak, Option.some.injEq] at h
          rw [← h]; exact hb
        · simp only [lookupS, if_neg hak] at h
          exact ih h
      · simp only [Bool.not_eq_false] at hb
        simp only [get_parser_args, List.filter_cons, hb, Bool.not_true,
          Bool.false_eq_true, if_false] at h
        exact ih h

theorem containsKey_filter_false (xs : Args) (p : String × Value → Bool)
    (k : String) (h : containsKey xs k = false) :
    containsKey (xs.filter p) k = false := by
  induction xs with
  | nil => rfl
  | cons kv rest ih =>
      simp only [containsKey, Bool.or_eq_false_iff] at h
      by_cases hp : p kv = true
      · simp [List.filter_cons, hp, containsKey, h.1, ih h.2]
      · simp only [List.filter_cons, hp, Bool.false_eq_true, if_false]
        exact ih h.2

theorem null_arg_filtered_out (raw : Args) (k : String)
    (hnd : (raw.map Prod.fst).Nodup) (h : lookupS raw k = some Value.none) :
    containsKey (get_parser_args raw) k = false := by
  induction raw with
  | nil => simp [lookupS] at h
  | cons kv rest ih =>
      obtain ⟨a, b⟩ := kv
      simp only [List.map_cons, List.nodup_cons] at hnd
      by_cases hak : a = k
      · subst hak
        simp [lookupS] at h
        subst h
        simp only [get_parser_args, List.filter_cons, Value.isNone, Bool.not_true,
          Bool.false_eq_true, if_false]
        exact containsKey_filter_false _ _ _
          (containsKey_eq_false_of_not_mem _ _ hnd.1)
      · simp only [lookupS, if_neg hak] at h
        simp only [get_parser_args, List.filter_cons]
        have hrest := ih hnd.2 h
        simp only [get_parser_args] at hrest
        by_cases hb : b.isNone = false
        · simp only [hb, Bool.not_false, if_pos]
          simp [containsKey, hak, hrest]
        · simp only [Bool.not_eq_false] at hb
          simp only [hb, Bool.not_true, Bool.false_eq_true, if_false]
          exact hrest

/-! ## Lemmas about queries and the session -/

theorem mem_insDesc (key : Record → Value) (r x : Record) (l : List Record) :
    x ∈ insDesc key r l → x = r ∨ x ∈ l := by
  induction l with
  | nil => intro h; simpa [insDesc] using h
  | cons a l ih =>
      intro h
      simp only [insDesc] at h
      by_cases hc : (valCmp (key a) (key r) == some Ordering.lt) = true
      · simp only [hc, if_pos, List.mem_cons] at h
        rcases h with h | h | h
        · exact Or.inl h
        · exact Or.inr (by simp [h])
        · exact Or.inr (List.mem_cons_of_mem _ h)
      · simp only [hc, Bool.false_eq_true, if_false, List.mem_cons] at h
        rcases h with h | h
        · exact Or.inr (by simp [h])
        · rcases ih h with h | h
          · exact Or.inl h
          · exact Or.inr (List.mem_cons_of_mem _ h)

theorem mem_sortDescBy (key : Record → Value) (x : Record) (l : List Record) :
    x ∈ sortDescBy key l → x ∈ l := by
  induction l with
  | nil => intro h; simpa [sortDescBy] using h
  | cons a l ih =>
      intro h
      simp only [sortDescBy] at h
      rcases mem_insDesc _ _ _ _ h with h | h
      · simp [h]
      · exact List.mem_cons_of_mem _ (ih h)

theorem mem_paginate (args : Args) (l : List Record) (x : Record)
    (h : x ∈ paginate args l) : x ∈ l := by
  unfold paginate at h
  split_ifs at h
  · exact List.mem_of_mem_drop (List.mem_of_mem_take h)
  · exact List.mem_of_mem_drop (List.mem_of_mem_take h)
  · exact h

theorem mem_insertS_self (xs : List (String × Value)) (k : String) (v : Value) :
    (k, v) ∈ insertS xs k v := by
  induction xs with
  | nil => simp [insertS]
  | cons kv rest ih =>
      obtain ⟨a, b⟩ := kv
      by_cases hak : a = k
      · simp [insertS, hak]
      · simp only [insertS, if_neg hak, List.mem_cons]
        exact Or.inr ih

theorem queryGet_mutate (working : List Record) (r r2 : Record) (idv : Value)
    (hfind : queryGet working idv = some r)
    (huniq : ∀ x ∈ working, idMatches idv x = true → x = r)
    (hp2 : idMatches idv r2 = true) :
    queryGet (mutateRecord working r r2) idv = some r2 := by
  induction working with
  | nil => simp [queryGet, List.find?] at hfind
  | cons x rest ih =>
      by_cases hbeq : Value.beq (.obj x) (.obj r) = true
      · simp [queryGet, mutateRecord, List.find?, hbeq, hp2]
      · by_cases hpx : idMatches idv x = true
        · have hx : x = r := by
            simp only [queryGet, List.find?, hpx] at hfind
            exact Option.some.inj hfind
          rw [hx] at hbeq
          exact absurd (Value.beq_refl (.obj r)) hbeq
        · have hfind' : queryGet rest idv = some r := by
            simp only [queryGet, List.find?] at hfind ⊢
            rwa [Bool.eq_false_iff.mpr hpx] at hfind
          have huniq' : ∀ y ∈ rest, idMatches idv y = true → y = r :=
            fun y hy => huniq y (List.mem_cons_of_mem _ hy)
          have hrec := ih hfind' huniq'
          have hb : Value.beq (.obj x) (.obj r) = false := Bool.eq_false_iff.mpr hbeq
          have hpxf : idMatches idv x = false := Bool.eq_false_iff.mpr hpx
          simpa [queryGet, mutateRecord, List.find?_cons, hb, hpxf] using hrec

theorem filters_query_not_deleted (model : ModelMeta) (working : List Record)
    (filters : List (String × Value))
    (h : model.fields.contains "is_delete" = true) :
    ∀ x ∈ filters_query model working filters,
      getattrR x "is_delete" = some (.int 0) := by
  intro x hx
  unfold filters_query at hx
  rw [h] at hx
  simp only [if_pos] at hx
  have hmem : ("is_delete", Value.int 0) ∈
      (insertS filters "is_delete" (.int 0)).filter (fun kv =>
        match kv.2 with
        | .dict _ => false
        | _ => true) :=
    List.mem_filter.mpr ⟨mem_insertS_self _ _ _, rfl⟩
  have hne : ((insertS filters "is_delete" (.int 0)).filter (fun kv =>
      match kv.2 with
      | .dict _ => false
      | _ => true)).isEmpty = false := by
    cases hfl : (insertS filters "is_delete" (.int 0)).filter (fun kv =>
        match kv.2 with
        | .dict _ => false
        | _ => true) with
    | nil => rw [hfl] at hmem; cases hmem
    | cons a b => rfl
  rw [hne] at hx
  simp only [Bool.false_eq_true, if_false] at hx
  have hpred := (List.mem_filter.mp hx).2
  unfold eqFiltersPred at hpred
  have := (List.all_eq_true.mp hpred) _ hmem
  cases hga : getattrR x "is_delete" with
  | none => rw [hga] at this; simp at this
  | some w =>
      rw [hga] at this
      exact congrArg some (value_beq_int _ _ this)

/-! ## Claim theorems -/

/-- Claim C1: the default record serializer `query_data_process` is
claimed to map a list of records to a list of structures, a single record
to a single structure, and an empty/falsy input to an empty structure.
On the code this fails: every call path reaches the positional call of
the keyword-only `__process_query_item_data` and raises `TypeError` — for
a single record, for a falsy input, and for every non-empty list alike
(only the empty list survives, vacuously). -/
theorem c1_serializer_raises_typeerror :
    query_data_process c0 (.obj [("a", .int 1)]) = .error .typeError
  ∧ query_data_process c0 Value.none = .error .typeError
  ∧ query_data_process c0 (.list [.obj [("a", .int 1)]]) = .error .typeError
  ∧ query_data_process c0 (.list []) = .ok (.list []) :=
  ⟨rfl, rfl, rfl, rfl⟩

/-- Claim C7: a non-null value of a declared JSON-load field is claimed
to be emitted JSON-decoded.  On the code the serializer instead passes
the field NAME string to `loads_json_str`, so for a record whose `config`
column stores the JSON text `[1, 2]` the serializer raises (the name
`config` is not valid JSON) — while decoding the stored value itself
would have succeeded, as the second conjunct shows. -/
theorem c7_json_load_decodes_field_name :
    process_query_item_data c0 (.obj [("config", .str "[1, 2]")]) 1
      ["config"] ["config"] [] = .error .valueError
  ∧ loads_json_str c0 (.str "[1, 2]") = .ok (.list [.int 1, .int 2]) :=
  ⟨rfl, rfl⟩

/-- Claim C2: with a non-empty create-uniqueness field set, submitting
the same field values twice is claimed to yield success then the
"数据已存在" business failure with exactly one record persisted.  On the
code `check_item_exist` returns `None` whenever `check_fields` is
non-empty and no custom hook exists (the source's branches are inverted),
so both submissions succeed and two records are persisted; the final
conjunct evaluates the check directly against a database that already
holds the matching record. -/
theorem c2_duplicate_check_never_fires :
    (postOp c0 cfg2 st0 aN).2 = http_resp SUCCESS_CODE "添加成功"
      (.dict [("item", .obj [("id", .int 1), ("name", .str "a"), ("is_delete", .int 0)])])
  ∧ (postOp c0 cfg2 (postOp c0 cfg2 st0 aN).1 aN).2 = http_resp SUCCESS_CODE "添加成功"
      (.dict [("item", .obj [("id", .int 2), ("name", .str "a"), ("is_delete", .int 0)])])
  ∧ (postOp c0 cfg2 (postOp c0 cfg2 st0 aN).1 aN).1.committed.length = 2
  ∧ check_item_exist cfg2
      [[("id", .int 1), ("name", .str "a"), ("is_delete", .int 0)]]
      ["name"] aN = .ok Option.none :=
  ⟨rfl, rfl, rfl, rfl⟩

/-- Claim C8: a hook returning a pre-built response is claimed to be
detected by type and returned immediately at every hook point — in
particular at the list read's `get_postprocess_func`.  On the code that
one site performs no type check: the returned response flows into the
serialization step, the pipeline raises, and the caller receives the
generic "查询失败" failure envelope instead of the hook's response. -/
theorem c8_list_posthook_response_not_returned :
    (listGet c0 cfg8 st0 []).2 = http_resp FAILED_CODE "查询失败"
  ∧ (listGet c0 cfg8 st0 []).2 ≠ hookedResp :=
  ⟨rfl, by
    intro h
    rw [show (listGet c0 cfg8 st0 []).2 = http_resp FAILED_CODE "查询失败" from rfl] at h
    simp only [http_resp, hookedResp, FAILED_CODE, Value.isNone] at h
    exact absurd (Value.resp.inj h).1 (by decide)⟩

/-- Claim C3 counterexample: an update request whose parsed arguments
carry the key `name` with an explicit null is claimed to overwrite the
record's `name` attribute with null.  On the code `get_parser_args` drops
every `None`-valued entry, the remaining argument dict is empty, the
request is rejected as "参数不能为空", and the attribute keeps its prior
value `x`. -/
theorem c3_counterexample_null_does_not_overwrite :
    (putOp c0 cfg3 st1 (.int 1) [("name", Value.none)]).1 = st1
  ∧ (putOp c0 cfg3 st1 (.int 1) [("name", Value.none)]).2
      = http_resp FAILED_CODE "参数不能为空"
  ∧ getattrR r0 "name" = some (.str "x") :=
  ⟨rfl, rfl, rfl⟩

/-- Claim C3 (amended): for every update request, a field absent from the
filtered parsed-argument dict, or not exposed as an attribute of the
record, is left unchanged by the update loop; every argument that
survives `get_parser_args` and names an existing attribute overwrites
that attribute — and such a surviving value is never null, because
`get_parser_args` drops null-valued entries, so a key sent with an
explicit null leaves the attribute unchanged. -/
theorem c3_update_field_semantics (r : Record) (raw : Args) (k : String)
    (hnd : (raw.map Prod.fst).Nodup) :
    (containsKey (get_parser_args raw) k = false ∨ hasattrR r k = false →
      getattrR (put_update_fields r (get_parser_args raw)) k = getattrR r k)
  ∧ (∀ v, lookupS (get_parser_args raw) k = some v → hasattrR r k = true →
      getattrR (put_update_fields r (get_parser_args raw)) k = some v
        ∧ v.isNone = false)
  ∧ (lookupS raw k = some Value.none →
      getattrR (put_update_fields r (get_parser_args raw)) k = getattrR r k) := by
  refine ⟨?_, ?_, ?_⟩
  · rintro (h | h)
    · exact put_update_fields_not_mem _ _ _ h
    · exact put_update_fields_not_attr _ _ _ h
  · intro v hv hr
    have hnd' : ((get_parser_args raw).map Prod.fst).Nodup :=
      hnd.sublist ((List.filter_sublist raw).map Prod.fst)
    exact ⟨put_update_fields_mem _ _ _ _ hnd' hv hr,
      lookup_get_parser_args_not_none _ _ _ hv⟩
  · intro h
    exact put_update_fields_not_mem _ _ _ (null_arg_filtered_out _ _ hnd h)

/-- Witness for C3 (amended) at a concrete record and raw argument map:
the non-null argument overwrites, the null-valued key leaves its field
unchanged. -/
theorem c3_update_field_semantics_witness :
    getattrR (put_update_fields r0 (get_parser_args rawU)) "name"
      = some (.str "y")
  ∧ getattrR (put_update_fields r0 (get_parser_args rawU)) "nil"
      = getattrR r0 "nil" :=
  ⟨((c3_update_field_semantics r0 rawU "name" (by decide)).2.1
      (.str "y") rfl rfl).1,
   (c3_update_field_semantics r0 rawU "nil" (by decide)).2.2 rfl⟩

/-- Claim C4: for every create, update or delete request whose try-block
raises an unhandled exception, the session is rolled back (the committed
rows are untouched and the working rows are restored from them) and the
response is the failure envelope with the FAILED code and the
operation-specific generic message. -/
theorem c4_write_exception_rollback (c : JsonCodec) (cfg : ResourceCfg)
    (st : St) (idv : Value) (raw : Args)
    (hargs : (get_parser_args raw).isEmpty = false) :
    (∀ e, postTry c cfg st (get_parser_args raw) = .error e →
      postOp c cfg st raw = (st.rollback, http_resp FAILED_CODE "添加失败")
        ∧ (postOp c cfg st raw).1.committed = st.committed)
  ∧ (∀ e, putTry c cfg st idv (get_parser_args raw) = .error e →
      putOp c cfg st idv raw = (st.rollback, http_resp FAILED_CODE "修改失败")
        ∧ (putOp c cfg st idv raw).1.committed = st.committed)
  ∧ (∀ e, deleteTry c cfg st idv (get_parser_args raw) = .error e →
      deleteOp c cfg st idv raw = (st.rollback, http_resp FAILED_CODE "删除失败")
        ∧ (deleteOp c cfg st idv raw).1.committed = st.committed) := by
  refine ⟨fun e he => ?_, fun e he => ?_, fun e he => ?_⟩
  · have h : postOp c cfg st raw
        = (st.rollback, http_resp FAILED_CODE "添加失败") := by
      simp only [postOp, hargs, Bool.false_eq_true, if_false, he]
    exact ⟨h, by rw [h]; rfl⟩
  · have h : putOp c cfg st idv raw
        = (st.rollback, http_resp FAILED_CODE "修改失败") := by
      simp only [putOp, hargs, Bool.false_eq_true, if_false, he]
    exact ⟨h, by rw [h]; rfl⟩
  · have h : deleteOp c cfg st idv raw
        = (st.rollback, http_resp FAILED_CODE "删除失败") := by
      simp only [deleteOp, he]
    exact ⟨h, by rw [h]; rfl⟩

/-- Witness for C4: on a concrete resource, an exception in each write
pipeline (the failing default serializer for create and update, a raising
delete post-hook for delete) produces the rolled-back state and the three
operation-specific failure envelopes. -/
theorem c4_write_exception_rollback_witness :
    postOp c0 cfgW st1 aN = (st1.rollback, http_resp FAILED_CODE "添加失败")
  ∧ putOp c0 cfgW st1 (.int 1) aN
      = (st1.rollback, http_resp FAILED_CODE "修改失败")
  ∧ deleteOp c0 cfgW st1 (.int 1) aN
      = (st1.rollback, http_resp FAILED_CODE "删除失败") :=
  ⟨((c4_write_exception_rollback c0 cfgW st1 (.int 1) aN rfl).1
      .typeError rfl).1,
   ((c4_write_exception_rollback c0 cfgW st1 (.int 1) aN rfl).2.1
      .typeError rfl).1,
   ((c4_write_exception_rollback c0 cfgW st1 (.int 1) aN rfl).2.2
      .valueError rfl).1⟩

/-- Claim C5: for every list request, the stored total equals the count
of the filtered-but-unpaginated query, and for two argument maps that
agree outside the pagination keys — provided the custom query hooks, if
any, respond equally to the two maps — the totals are equal. -/
theorem c5_total_invariant (cfg : ResourceCfg) (working : List Record)
    (a a' : Args)
    (hagree : ∀ k, paginationKeys.contains k = false → lookupS a k = lookupS a' k)
    (hq1 : ∀ f, cfg.get_query_func = some f → f working a = f working a')
    (hq2 : ∀ f q, cfg.add_query_filter = some f → f q a = f q a') :
    (get_query cfg working a).1 = (get_query cfg working a').1
  ∧ (get_query cfg working a).1 = get_total (filtered_query cfg working a) := by
  have e1 : (match cfg.get_query_func with
      | some f => f working a
      | Option.none => working)
    = (match cfg.get_query_func with
      | some f => f working a'
      | Option.none => working) := by
    cases h1 : cfg.get_query_func with
    | none => rfl
    | some f => exact hq1 f h1
  have hfq : filtered_query cfg working a = filtered_query cfg working a' := by
    unfold filtered_query
    simp only [e1]
    cases h2 : cfg.add_query_filter with
    | none => rfl
    | some g => exact hq2 g _ h2
  refine ⟨?_, rfl⟩
  show get_total (filtered_query cfg working a)
    = get_total (filtered_query cfg working a')
  rw [hfq]

/-- Witness for C5: with no custom query hooks, a page-2 request and an
unpaginated request over the same rows report the same total. -/
theorem c5_total_invariant_witness :
    (get_query cfg3 [r0] aPag).1 = (get_query cfg3 [r0] []).1
  ∧ (get_query cfg3 [r0] aPag).1 = get_total (filtered_query cfg3 [r0] aPag) :=
  c5_total_invariant cfg3 [r0] aPag []
    (by
      intro k hk
      have h1 : ("page" : String) ≠ k := by
        intro h; subst h; simp [paginationKeys] at hk
      have h2 : ("per_page" : String) ≠ k := by
        intro h; subst h; simp [paginationKeys] at hk
      simp [aPag, lookupS, h1, h2])
    (by intro f hf; simp [cfg3] at hf)
    (by intro f q hf; simp [cfg3] at hf)

/-- Claim C9: on a model declaring `is_delete`, the filter helpers force
the predicate `is_delete == 0` over any caller-supplied filter map
(overwriting a caller-passed `is_delete` entry), so every record they
return, the record a first-match lookup returns, and every record they
count has `is_delete = 0`. -/
theorem c9_filter_helpers_force_not_deleted (model : ModelMeta)
    (working : List Record) (filters : List (String × Value))
    (fields : List String)
    (h : model.fields.contains "is_delete" = true) :
    (∀ x ∈ get_items_by_filters model working [] filters,
        getattrR x "is_delete" = some (.int 0))
  ∧ (∀ x, get_item_by_filters model working [] filters = some x →
        getattrR x "is_delete" = some (.int 0))
  ∧ get_count_by_filters model working fields filters
      = (filters_query model working filters).length
  ∧ (∀ x ∈ filters_query model working filters,
        getattrR x "is_delete" = some (.int 0)) := by
  have hfq := filters_query_not_deleted model working filters h
  refine ⟨?_, ?_, rfl, hfq⟩
  · intro x hx
    exact hfq x (by simpa [get_items_by_filters] using hx)
  · intro x hx
    have hhead : (filters_query model working filters).head? = some x := by
      simpa [get_item_by_filters] using hx
    have hmem : x ∈ filters_query model working filters := by
      cases hfl : filters_query model working filters with
      | nil => rw [hfl] at hhead; cases hhead
      | cons a t =>
          rw [hfl] at hhead
          simp only [List.head?] at hhead
          rw [← Option.some.inj hhead]
          exact List.mem_cons_self a t
    exact hfq x hmem

/-- Witness for C9: a caller-supplied filter `is_delete = 1` is
overwritten, so over a table holding only a soft-deleted record the count
is 0. -/
theorem c9_filter_helpers_witness :
    get_count_by_filters mU [rDel] [] [("is_delete", .int 1)]
      = (filters_query mU [rDel] [("is_delete", .int 1)]).length
  ∧ get_count_by_filters mU [rDel] [] [("is_delete", .int 1)] = 0 :=
  ⟨(c9_filter_helpers_force_not_deleted mU [rDel]
      [("is_delete", .int 1)] [] rfl).2.2.1, rfl⟩

/-- Claim C10: the item fetch used by item read, update and delete is
total on missing records — `get_item_by_pid` short-circuits a falsy key
to `None`, `get_item` returns `None` for a missing row (the
`getattr(item, "is_delete", 0)` default makes the `None` flow through
without raising) — and each of the three operations then reports the
"数据不存在" business failure rather than a system error. -/
theorem c10_missing_item_total (c : JsonCodec) (cfg : ResourceCfg)
    (st : St) (idv pid : Value) (raw : Args)
    (h1 : cfg.get_item_func = Option.none)
    (h2 : cfg.get_item_by_join_func = Option.none)
    (h3 : cfg.get_preprocess_func = Option.none)
    (hmiss : queryGet st.working idv = Option.none)
    (hfalsy : pid.truthy = false)
    (hargs : (get_parser_args raw).isEmpty = false) :
    get_item_by_pid st.working pid = Option.none
  ∧ get_item cfg st.working idv (get_parser_args raw) = .ok Value.none
  ∧ itemGet c cfg st idv raw = (st, http_resp FAILED_CODE "数据不存在")
  ∧ putOp c cfg st idv raw = (st, http_resp FAILED_CODE "数据不存在")
  ∧ deleteOp c cfg st idv raw = (st, http_resp FAILED_CODE "数据不存在") := by
  have hget : get_item cfg st.working idv (get_parser_args raw)
      = .ok Value.none := by
    simp [get_item, h1, hmiss, Value.truthy, pure, Except.pure,
      Bind.bind, Except.bind]
  refine ⟨?_, hget, ?_, ?_, ?_⟩
  · simp [get_item_by_pid, hfalsy, ite_self]
  · simp [itemGet, itemGetTry, h2, h3, hget, checkResp, asArgs,
      Bind.bind, Except.bind, pure, Except.pure]
  · simp [putOp, hargs, putTry, hget, Bind.bind, Except.bind, pure,
      Except.pure]
  · simp [deleteOp, deleteTry, hget, Bind.bind, Except.bind, pure,
      Except.pure]

/-- Claim C6: a successful delete on a model exposing the soft-delete
flag sets `is_delete = 1` instead of removing the row: the committed
state still resolves the identifier through the raw primary-key lookup
(the row is fetchable internally), while the default list query, the item
fetch used by item read/update/delete, and the filter helpers — all of
which conjoin `is_delete == 0` — exclude the record afterwards. -/
theorem c6_soft_delete_visibility (c : JsonCodec) (cfg : ResourceCfg)
    (st : St) (idv : Value) (raw : Args) (r : Record)
    (h1 : cfg.get_item_func = Option.none)
    (h2 : cfg.delete_preprocess_func = Option.none)
    (h3 : cfg.delete_postprocess_func = Option.none)
    (h4 : cfg.model.fields.contains "is_delete" = true)
    (h5 : queryGet st.working idv = some r)
    (h6 : getattrR r "is_delete" = some (.int 0))
    (h7 : ∀ x ∈ st.working, idMatches idv x = true → x = r)
    (h8 : cfg.get_query_func = Option.none)
    (h9 : cfg.add_query_filter = Option.none)
    (h10 : cfg.add_query_sort = Option.none) :
    deleteOp c cfg st idv raw
      = ({ committed := mutateRecord st.working r (setattrR r "is_delete" (.int 1)),
           working := mutateRecord st.working r (setattrR r "is_delete" (.int 1)) },
         http_resp SUCCESS_CODE "删除成功" (.dict [("key", idv)]))
  ∧ queryGet (mutateRecord st.working r (setattrR r "is_delete" (.int 1))) idv
      = some (setattrR r "is_delete" (.int 1))
  ∧ getattrR (setattrR r "is_delete" (.int 1)) "is_delete" = some (.int 1)
  ∧ get_item cfg (mutateRecord st.working r (setattrR r "is_delete" (.int 1)))
      idv (get_parser_args raw) = .ok Value.none
  ∧ (∀ args2, setattrR r "is_delete" (.int 1)
      ∉ (get_query cfg
          (mutateRecord st.working r (setattrR r "is_delete" (.int 1))) args2).2)
  ∧ (∀ filters, setattrR r "is_delete" (.int 1)
      ∉ filters_query cfg.model
          (mutateRecord st.working r (setattrR r "is_delete" (.int 1))) filters) := by
  have hr2 : getattrR (setattrR r "is_delete" (.int 1)) "is_delete"
      = some (.int 1) := getattr_setattr_same _ _ _
  have hhas : hasattrR r "is_delete" = true := hasattr_of_getattr_some _ _ _ h6
  have hid : getattrR (setattrR r "is_delete" (.int 1)) "id" = getattrR r "id" :=
    getattr_setattr_ne _ _ _ _ (by decide)
  have hpr : idMatches idv r = true := List.find?_some h5
  have hp2 : idMatches idv (setattrR r "is_delete" (.int 1)) = true := by
    unfold idMatches at hpr ⊢
    rw [hid]
    exact hpr
  have hq2 := queryGet_mutate st.working r _ idv h5 h7 hp2
  have hget : get_item cfg st.working idv (get_parser_args raw)
      = .ok (.obj r) := by
    simp [get_item, h1, h5, h6, Value.truthy, pure, Except.pure,
      Bind.bind, Except.bind]
  refine ⟨?_, hq2, hr2, ?_, ?_, ?_⟩
  · simp [deleteOp, deleteTry, hget, h2, h3, itemArgHookStepW, hookStepW,
      asObj, hhas, St.commit, Bind.bind, Except.bind, pure, Except.pure]
  · simp [get_item, h1, hq2, hr2, Value.truthy, pure, Except.pure,
      Bind.bind, Except.bind]
  · intro args2 hmem
    simp only [get_query, h10] at hmem
    have hm2 := mem_paginate _ _ _ hmem
    have hm3 : setattrR r "is_delete" (.int 1) ∈ filtered_query cfg
        (mutateRecord st.working r (setattrR r "is_delete" (.int 1))) args2 := by
      by_cases hct : cfg.model.fields.contains "create_time" = true
      · rw [if_pos hct] at hm2
        exact mem_sortDescBy _ _ _ hm2
      · rwa [if_neg hct] at hm2
    simp only [filtered_query, h8, h9, h4, if_pos] at hm3
    have hp := (List.mem_filter.mp hm3).2
    rw [hr2] at hp
    simp [Value.beq] at hp
  · intro filters hmem
    have hnd := filters_query_not_deleted cfg.model _ filters h4 _ hmem
    rw [hr2] at hnd
    simp at hnd

/-- Witness for C6: deleting the concrete record `r0` flips its flag,
keeps it reachable by raw primary-key lookup, and makes the item fetch
report it missing. -/
theorem c6_soft_delete_visibility_witness :
    deleteOp c0 cfg3 st1 (.int 1) []
      = ({ committed := mutateRecord st1.working r0 (setattrR r0 "is_delete" (.int 1)),
           working := mutateRecord st1.working r0 (setattrR r0 "is_delete" (.int 1)) },
         http_resp SUCCESS_CODE "删除成功" (.dict [("key", .int 1)]))
  ∧ queryGet (mutateRecord st1.working r0 (setattrR r0 "is_delete" (.int 1)))
      (.int 1) = some (setattrR r0 "is_delete" (.int 1))
  ∧ get_item cfg3 (mutateRecord st1.working r0 (setattrR r0 "is_delete" (.int 1)))
      (.int 1) (get_parser_args []) = .ok Value.none :=
  ⟨(c6_soft_delete_visibility c0 cfg3 st1 (.int 1) [] r0 rfl rfl rfl rfl rfl rfl
      (by intro x hx _; simpa [st1] using hx) rfl rfl rfl).1,
   (c6_soft_delete_visibility c0 cfg3 st1 (.int 1) [] r0 rfl rfl rfl rfl rfl rfl
      (by intro x hx _; simpa [st1] using hx) rfl rfl rfl).2.1,
   (c6_soft_delete_visibility c0 cfg3 st1 (.int 1) [] r0 rfl rfl rfl rfl rfl rfl
      (by intro x hx _; simpa [st1] using hx) rfl rfl rfl).2.2.2.1⟩

/-- Witness for C10: a session holding only the record with id 1, probed
with the missing id 5 and the falsy id 0. -/
theorem c10_missing_item_total_witness :
    get_item_by_pid st1.working (.int 0) = Option.none
  ∧ itemGet c0 cfg3 st1 (.int 5) aN = (st1, http_resp FAILED_CODE "数据不存在")
  ∧ putOp c0 cfg3 st1 (.int 5) aN = (st1, http_resp FAILED_CODE "数据不存在")
  ∧ deleteOp c0 cfg3 st1 (.int 5) aN
      = (st1, http_resp FAILED_CODE "数据不存在") :=
  ⟨(c10_missing_item_total c0 cfg3 st1 (.int 5) (.int 0) aN
      rfl rfl rfl rfl rfl rfl).1,
   (c10_missing_item_total c0 cfg3 st1 (.int 5) (.int 0) aN
      rfl rfl rfl rfl rfl rfl).2.2.1,
   (c10_missing_item_total c0 cfg3 st1 (.int 5) (.int 0) aN
      rfl rfl rfl rfl rfl rfl).2.2.2.1,
   (c10_missing_item_total c0 cfg3 st1 (.int 5) (.int 0) aN
      rfl rfl rfl rfl rfl rfl).2.2.2.2⟩

end FlaskCrud
